import Mathlib

/-!
Shallow embedding of the warp websocket chat server (src/src/main.rs) and
proofs about its connection lifecycle, history buffer, and broadcast logic.

The shared state (`Users`, `History` in main.rs) is modelled as explicit
values threaded through the functions; the HashMap of users becomes an
association list with HashMap insert/remove/lookup semantics; each function
returns, besides the updated state, the observable outputs (transport writes,
channel enqueues) performed by the corresponding Rust code.
-/

namespace WarpChat

/-- Outbound delivery handle: stands for the mpsc UnboundedSender stored as
the value of the users map; modelled as an opaque numeric identifier. -/
abbrev Handle := Nat

/-- A websocket frame as seen by the session logic: a text frame whose
payload decodes as a string, or any other frame kind (binary, ping, close),
for which decoding fails. -/
inductive Message where
  | text : String → Message
  | nonText : Message
deriving DecidableEq

/-- Embeds warp Message to_str: Ok exactly on text frames. -/
def Message.toStr : Message → Option String
  | Message.text s => some s
  | Message.nonText => none

/-- One enqueue performed by the broadcast loop: which registry entry (key
and handle) received which rendered payload. -/
structure Delivery where
  key : String
  handle : Handle
  payload : String
deriving DecidableEq

/-- The two shared resources of main.rs: the users map (display name to
sender handle, main.rs line 21) and the history vector (line 22). -/
structure ChatState where
  users : List (String × Handle)
  history : List String
deriving DecidableEq

/-- HashMap get on the users map, embedded as first-match lookup. -/
def registryLookup (users : List (String × Handle)) (key : String) : Option Handle :=
  (users.find? (fun p => p.1 == key)).map Prod.snd

/-- HashMap insert (main.rs line 153): replaces the value when the key is
present, otherwise adds the entry. -/
def registryInsert (users : List (String × Handle)) (key : String) (h : Handle) :
    List (String × Handle) :=
  if users.any (fun p => p.1 == key) then
    users.map (fun p => if p.1 == key then (key, h) else p)
  else
    users ++ [(key, h)]

/-- HashMap remove (main.rs line 210): drops the entry for the key, a no-op
when absent. -/
def registryRemove (users : List (String × Handle)) (key : String) :
    List (String × Handle) :=
  users.filter (fun p => !(p.1 == key))

/-- Embeds the history update block of user_message (main.rs lines 185 to
193): under the write lock, when the length is at least 20 the oldest entry
(index 0) is removed, then the new message is pushed at the end. -/
def historyAppend (history : List String) (newMsg : String) : List String :=
  (if history.length ≥ 20 then history.drop 1 else history) ++ [newMsg]

/-- Embeds the rendering at main.rs line 184. The my_id argument of
user_message is the string the caller passes at line 168, namely data, the
session's display name. -/
def renderMessage (myId text : String) : String :=
  "<User#" ++ myId ++ ">: " ++ text

/-- Embeds the fan-out loop of user_message (main.rs lines 195 to 203): for
every entry of the users map whose key differs from my_id, the rendered
message is enqueued on that entry's handle; send errors are swallowed. -/
def broadcastExcept (users : List (String × Handle)) (myId newMsg : String) :
    List Delivery :=
  users.filterMap (fun p =>
    if myId ≠ p.1 then some { key := p.1, handle := p.2, payload := newMsg } else none)

/-- Embeds user_message (main.rs lines 176 to 204): a non-text frame returns
at once (state unchanged, nothing enqueued); a text frame is rendered,
appended to the history under the write lock, and enqueued on every registry
entry other than the sender key. -/
def user_message (myId : String) (msg : Message) (s : ChatState) :
    ChatState × List Delivery :=
  match Message.toStr msg with
  | none => (s, [])
  | some text =>
    let newMsg := renderMessage myId text
    ({ users := s.users, history := historyAppend s.history newMsg },
     broadcastExcept s.users myId newMsg)

/-- Result of one read from the websocket receive half: a frame, a read
error, or end of stream. -/
inductive ReadResult where
  | frame : Message → ReadResult
  | readError : ReadResult
  | streamEnd : ReadResult
deriving DecidableEq

/-- Embeds the naming read match of user_connected (main.rs lines 82 to 99):
user_name is Some of the decoded text exactly when a frame arrived and its
payload decoded; decode failure, read error and stream end all give None. -/
def nameFromRead : ReadResult → Option String
  | ReadResult.frame m => Message.toStr m
  | ReadResult.readError => none
  | ReadResult.streamEnd => none

/-- Embeds main.rs lines 100 to 103: the registry key defaults to Anonymous
when the naming read produced nothing or produced the empty string. -/
def displayName (r : ReadResult) : String :=
  let data := (nameFromRead r).getD "Anonymous"
  if data.isEmpty then "Anonymous" else data

/-- Embeds the welcome and history replay of user_connected (main.rs lines
106 to 134), as the ordered list of transport writes it performs. The whole
block is guarded by if let Some, so a failed naming read sends nothing; on
success the welcome is written, then, when the history is non-empty, the
header followed by each buffered entry as its own write. -/
def welcomeAndReplay (r : ReadResult) (history : List String) : List String :=
  match nameFromRead r with
  | none => []
  | some userName =>
      ("Welcome to the chat, " ++ (if userName.isEmpty then "Anonymous" else userName) ++ "!")
        :: (if history.isEmpty then [] else "History:\n" :: history)

/-- Embeds the pre-relay phase of user_connected (main.rs lines 82 to 153):
naming read and defaulting, welcome plus history replay, then registration
of the outbound handle under the display name. Returns the updated state,
the chosen display name, and the direct transport writes in order. -/
def user_connected_setup (r : ReadResult) (tx : Handle) (s : ChatState) :
    ChatState × String × List String :=
  let data := displayName r
  let sends := welcomeAndReplay r s.history
  ({ users := registryInsert s.users data tx, history := s.history }, data, sends)

/-- Embeds user_disconnected (main.rs lines 206 to 211): removes the
session's key from the users map. -/
def user_disconnected (myId : String) (users : List (String × Handle)) :
    List (String × Handle) :=
  registryRemove users myId

/-- Embeds the relay loop of user_connected (main.rs lines 160 to 169): each
arriving frame is passed to user_message; a read error breaks the loop and
stream end terminates it. Returns the final state and all enqueues made. -/
def relayLoop (data : String) (reads : List ReadResult) (s : ChatState) :
    ChatState × List Delivery :=
  match reads with
  | [] => (s, [])
  | ReadResult.streamEnd :: _ => (s, [])
  | ReadResult.readError :: _ => (s, [])
  | ReadResult.frame m :: rest =>
      let step := user_message data m s
      let next := relayLoop data rest step.1
      (next.1, step.2 ++ next.2)

/-- Embeds a whole session (user_connected, main.rs lines 54 to 174): the
numeric id from NEXT_USER_ID (line 57) is the first argument; then the
naming read, the subsequent inbound reads, the handle of the outbound
channel, and the shared state. Returns the final shared state, the direct
transport writes of the setup phase, and every enqueue of the relay phase. -/
def user_connected (myNum : Nat) (r : ReadResult) (reads : List ReadResult)
    (tx : Handle) (s : ChatState) : ChatState × List String × List Delivery :=
  let setup := user_connected_setup r tx s
  let relayed := relayLoop setup.2.1 reads setup.1
  ({ users := user_disconnected setup.2.1 relayed.1.users,
     history := relayed.1.history },
   setup.2.2, relayed.2)

/-- Lock and transport events, used to state where the history replay of
user_connected performs transport I/O relative to its lock scope. -/
inductive Event where
  | acquireHistoryRead
  | releaseHistoryRead
  | transportWrite : String → Event
deriving DecidableEq

/-- Trace of the replay block of user_connected when the naming read
succeeded (main.rs lines 114 to 134): the read guard history1 is bound at
line 115 and stays in scope until the end of the enclosing block at line
134, so the header write at line 118 and the per-item writes at line 126
all happen while the guard is held; the guard is dropped only afterwards. -/
def replayTrace (history : List String) : List Event :=
  Event.acquireHistoryRead
    :: ((if history.isEmpty then []
         else Event.transportWrite "History:\n" :: history.map Event.transportWrite)
        ++ [Event.releaseHistoryRead])

/-- Helper for writeUnderHistoryLock; d counts the guards currently held. -/
def writeUnderLockAux (d : Nat) : List Event → Bool
  | [] => false
  | Event.acquireHistoryRead :: tr => writeUnderLockAux (d + 1) tr
  | Event.releaseHistoryRead :: tr => writeUnderLockAux (d - 1) tr
  | Event.transportWrite _ :: tr => decide (0 < d) || writeUnderLockAux d tr

/-- True when some transport write of the trace happens while the history
read guard is held (after an acquire and before the matching release). -/
def writeUnderHistoryLock (tr : List Event) : Bool :=
  writeUnderLockAux 0 tr

/-! Helper lemmas about the registry model. -/

theorem registryInsert_cons_eq {q : String × Handle} {qs : List (String × Handle)}
    {K : String} {h : Handle} (hq : q.1 = K) :
    registryInsert (q :: qs) K h =
      (K, h) :: qs.map (fun p => if p.1 == K then (K, h) else p) := by
  simp [registryInsert, hq]

theorem registryInsert_cons_ne {q : String × Handle} {qs : List (String × Handle)}
    {K : String} {h : Handle} (hq : q.1 ≠ K) :
    registryInsert (q :: qs) K h = q :: registryInsert qs K h := by
  by_cases hqs : qs.any (fun p => p.1 == K) <;>
    simp [registryInsert, hq, hqs]

theorem registryLookup_insert (users : List (String × Handle)) (K : String) (h : Handle) :
    registryLookup (registryInsert users K h) K = some h := by
  induction users with
  | nil => simp [registryInsert, registryLookup]
  | cons q qs ih =>
    by_cases hq : q.1 = K
    · rw [registryInsert_cons_eq hq]
      simp [registryLookup]
    · rw [registryInsert_cons_ne hq]
      have hq' : (q.1 == K) = false := by simpa using hq
      simpa [registryLookup, List.find?, hq'] using ih

theorem mem_registryInsert {p : String × Handle} {users : List (String × Handle)}
    {K : String} {h : Handle} (hp : p ∈ registryInsert users K h) :
    p = (K, h) ∨ (p ∈ users ∧ p.1 ≠ K) := by
  induction users with
  | nil => simpa [registryInsert] using hp
  | cons q qs ih =>
    by_cases hq : q.1 = K
    · rw [registryInsert_cons_eq hq] at hp
      rcases List.mem_cons.mp hp with h1 | h2
      · exact Or.inl h1
      · rcases List.mem_map.mp h2 with ⟨r, hr, hrp⟩
        by_cases hrK : r.1 = K
        · simp [hrK] at hrp
          exact Or.inl hrp.symm
        · simp [hrK] at hrp
          exact Or.inr ⟨hrp ▸ List.mem_cons_of_mem q hr, hrp ▸ hrK⟩
    · rw [registryInsert_cons_ne hq] at hp
      rcases List.mem_cons.mp hp with h1 | h2
      · exact Or.inr ⟨h1 ▸ List.mem_cons_self q qs, h1 ▸ hq⟩
      · rcases ih h2 with h3 | ⟨h4, h5⟩
        · exact Or.inl h3
        · exact Or.inr ⟨List.mem_cons_of_mem q h4, h5⟩

theorem registryLookup_remove (users : List (String × Handle)) (K : String) :
    registryLookup (registryRemove users K) K = none := by
  induction users with
  | nil => simp [registryRemove, registryLookup]
  | cons q qs ih =>
    by_cases hq : q.1 = K <;>
      simp_all [registryRemove, registryLookup, List.filter_cons, List.find?, hq]

theorem mem_registryRemove {p : String × Handle} {users : List (String × Handle)}
    {K : String} (hp : p ∈ registryRemove users K) : p ∈ users ∧ p.1 ≠ K := by
  have := List.of_mem_filter hp
  exact ⟨List.mem_of_mem_filter hp, by simpa using this⟩

/-! Helper lemmas about the broadcast loop. -/

theorem mem_broadcastExcept {d : Delivery} {users : List (String × Handle)}
    {S msg : String} (hd : d ∈ broadcastExcept users S msg) :
    (d.key, d.handle) ∈ users ∧ d.key ≠ S ∧ d.payload = msg := by
  rcases List.mem_filterMap.mp hd with ⟨p, hp, hpd⟩
  by_cases hS : S ≠ p.1
  · simp [hS] at hpd
    refine ⟨?_, ?_, ?_⟩
    · rw [← hpd]; exact hp
    · rw [← hpd]; simpa using Ne.symm hS
    · rw [← hpd]
  · simp [hS] at hpd

theorem broadcastExcept_mem_of_ne {p : String × Handle} {users : List (String × Handle)}
    (S msg : String) (hp : p ∈ users) (hne : p.1 ≠ S) :
    ({ key := p.1, handle := p.2, payload := msg } : Delivery) ∈ broadcastExcept users S msg := by
  refine List.mem_filterMap.mpr ⟨p, hp, ?_⟩
  simp [Ne.symm hne]

/-! Helper lemma about repeated history appends. -/

theorem foldl_historyAppend_eq (msgs : List String) :
    ∀ h : List String, h.length ≤ 20 →
      List.foldl historyAppend h msgs = (h ++ msgs).drop (h.length + msgs.length - 20) := by
  induction msgs with
  | nil =>
    intro h hle
    have e : h.length - 20 = 0 := by omega
    simp [e]
  | cons m ms ih =>
    intro h hle
    simp only [List.foldl_cons]
    by_cases hcase : 20 ≤ h.length
    · have h20 : h.length = 20 := le_antisymm hle hcase
      have happ : historyAppend h m = h.drop 1 ++ [m] := by
        simp [historyAppend, hcase]
      have hlen : (h.drop 1 ++ [m]).length ≤ 20 := by
        simp [List.length_drop]
        omega
      rw [happ, ih _ hlen]
      obtain ⟨hd, tl, rfl⟩ : ∃ hd tl, h = hd :: tl := by
        cases h with
        | nil => simp at h20
        | cons a l => exact ⟨a, l, rfl⟩
      have htl : tl.length = 19 := by simpa using h20
      simp only [List.drop_succ_cons, List.drop_zero]
      have e1 : (tl ++ [m]).length + ms.length - 20 = ms.length := by
        simp [htl]
      have e2 : (hd :: tl).length + (m :: ms).length - 20 = ms.length + 1 := by
        simp [htl]
      rw [e1, e2, List.cons_append, List.drop_succ_cons, List.append_assoc,
        List.singleton_append]
    · have happ : historyAppend h m = h ++ [m] := by
        simp [historyAppend, hcase]
      have hlen : (h ++ [m]).length ≤ 20 := by
        simp
        omega
      rw [happ, ih _ hlen]
      congr 1
      · simp
        omega
      · simp

/-- C2: for every sequence of appends starting from the empty history, the
buffer length never exceeds 20, and after more than 20 appends the buffer
holds exactly the last 20 appended messages in arrival order (the oldest
entry at index 0 being evicted on each append at capacity). -/
theorem history_capacity_last_twenty (msgs : List String) :
    (List.foldl historyAppend [] msgs).length ≤ 20
    ∧ (20 < msgs.length →
        List.foldl historyAppend [] msgs = msgs.drop (msgs.length - 20)) := by
  have key := foldl_historyAppend_eq msgs [] (by simp)
  simp only [List.nil_append, List.length_nil, Nat.zero_add] at key
  constructor
  · rw [key, List.length_drop]; omega
  · intro _; rw [key]

/-- Witness for C2 at a concrete run of 25 appends. -/
theorem history_capacity_last_twenty_witness :
    (List.foldl historyAppend [] ((List.range 25).map toString)).length ≤ 20
    ∧ List.foldl historyAppend [] ((List.range 25).map toString)
        = ((List.range 25).map toString).drop
            (((List.range 25).map toString).length - 20) :=
  ⟨(history_capacity_last_twenty ((List.range 25).map toString)).1,
   (history_capacity_last_twenty ((List.range 25).map toString)).2 (by simp)⟩

/-- C7: a non-text frame received in the relay state is silently dropped:
the history is unchanged, the registry is unchanged, and nothing is
enqueued to any registry entry. -/
theorem nontext_frame_dropped (myId : String) (s : ChatState) :
    (user_message myId Message.nonText s).1.history = s.history
    ∧ (user_message myId Message.nonText s).1.users = s.users
    ∧ (user_message myId Message.nonText s).2 = [] :=
  ⟨rfl, rfl, rfl⟩

/-- Helper: every payload enqueued by the broadcast loop is the rendered
message that was passed in. -/
theorem broadcastExcept_payloads_eq (users : List (String × Handle)) (S msg : String) :
    ((broadcastExcept users S msg).all fun d => d.payload == msg) = true := by
  induction users with
  | nil => rfl
  | cons p ps ih =>
    by_cases hc : S ≠ p.1 <;> simp_all [broadcastExcept, List.filterMap_cons]

/-- C1 counterexample: in a session whose numeric ConnectionId is 1 and
whose chosen display name is alice, relaying the text hi records in history
and fans out the string rendered with the display name, which differs from
the string rendered with the numeric ConnectionId. -/
theorem render_uses_name_not_id_counterexample :
    (user_connected 1 (ReadResult.frame (Message.text "alice"))
        [ReadResult.frame (Message.text "hi")] 9
        { users := [("bob", 7)], history := [] }).2.2
      = [{ key := "bob", handle := 7, payload := "<User#alice>: hi" }]
    ∧ (user_connected 1 (ReadResult.frame (Message.text "alice"))
        [ReadResult.frame (Message.text "hi")] 9
        { users := [("bob", 7)], history := [] }).1.history
      = ["<User#alice>: hi"]
    ∧ "<User#alice>: hi" ≠ "<User#1>: hi" := by
  refine ⟨by decide, by decide, by decide⟩

/-- C1 amended: the rendered string recorded in history and fanned out is
the display name interpolated into the sender tag, not the numeric
ConnectionId; indeed the whole observable behaviour of a session is
independent of the numeric id allocated at connection start. -/
theorem render_uses_display_name (name text : String) (s : ChatState) (i j : Nat)
    (r : ReadResult) (reads : List ReadResult) (tx : Handle) :
    (user_message name (Message.text text) s).1.history
        = historyAppend s.history ("<User#" ++ name ++ ">: " ++ text)
    ∧ ((user_message name (Message.text text) s).2.all
        fun d => d.payload == "<User#" ++ name ++ ">: " ++ text) = true
    ∧ user_connected i r reads tx s = user_connected j r reads tx s :=
  ⟨rfl, broadcastExcept_payloads_eq s.users name ("<User#" ++ name ++ ">: " ++ text), rfl⟩

/-- C3: a text relayed with sender key S is enqueued on every registry entry
whose key differs from S, and never on an entry keyed S. -/
theorem broadcast_excludes_sender (s : ChatState) (S text : String) :
    (∀ d ∈ (user_message S (Message.text text) s).2, d.key ≠ S)
    ∧ (∀ p ∈ s.users, p.1 ≠ S →
        ({ key := p.1, handle := p.2, payload := renderMessage S text } : Delivery)
          ∈ (user_message S (Message.text text) s).2) := by
  constructor
  · intro d hd
    exact (mem_broadcastExcept hd).2.1
  · intro p hp hne
    exact broadcastExcept_mem_of_ne S (renderMessage S text) hp hne

/-- Witness for C3 with registry entries a and b and sender a. -/
theorem broadcast_excludes_sender_witness :
    ({ key := "b", handle := 2, payload := renderMessage "a" "hi" } : Delivery).key ≠ "a"
    ∧ ({ key := "b", handle := 2, payload := renderMessage "a" "hi" } : Delivery)
        ∈ (user_message "a" (Message.text "hi")
            { users := [("a", 1), ("b", 2)], history := [] }).2 :=
  ⟨(broadcast_excludes_sender { users := [("a", 1), ("b", 2)], history := [] } "a" "hi").1
      { key := "b", handle := 2, payload := renderMessage "a" "hi" } (by decide),
   (broadcast_excludes_sender { users := [("a", 1), ("b", 2)], history := [] } "a" "hi").2
      ("b", 2) (by decide) (by decide)⟩

/-- C4 counterexample: a session whose naming read is stream end still
registers (under the placeholder name), yet no welcome message and no
history replay are written, although the history buffer is non-empty. -/
theorem welcome_skipped_on_failed_naming :
    welcomeAndReplay ReadResult.streamEnd ["old message"] = []
    ∧ (user_connected_setup ReadResult.streamEnd 5
        { users := [], history := ["old message"] }).2.2 = []
    ∧ ((user_connected_setup ReadResult.streamEnd 5
        { users := [], history := ["old message"] }).1).users = [("Anonymous", 5)] := by
  refine ⟨rfl, rfl, by decide⟩

/-- C4 amended: the welcome message and the history replay are written only
when the naming read yields a decodable text frame (possibly empty, in which
case the placeholder name is used); on decode failure, read error or stream
end the session writes nothing before registering. When they are written,
the welcome comes first and, when the history is non-empty, the header
follows and then each buffered message as an individual write in order. -/
theorem welcome_and_replay_on_named_session (r : ReadResult) (hist : List String) :
    (nameFromRead r = none → welcomeAndReplay r hist = [])
    ∧ (∀ n, nameFromRead r = some n →
        welcomeAndReplay r hist =
          ("Welcome to the chat, " ++ (if n.isEmpty then "Anonymous" else n) ++ "!")
            :: (if hist.isEmpty then [] else "History:\n" :: hist)) := by
  constructor
  · intro h
    simp [welcomeAndReplay, h]
  · intro n h
    simp [welcomeAndReplay, h]

/-- Witness for C4 at a named session with a two-message history. -/
theorem welcome_and_replay_on_named_session_witness :
    welcomeAndReplay (ReadResult.frame (Message.text "alice")) ["m1", "m2"]
      = "Welcome to the chat, alice!" :: "History:\n" :: ["m1", "m2"] := by
  have h := (welcome_and_replay_on_named_session
      (ReadResult.frame (Message.text "alice")) ["m1", "m2"]).2 "alice" (by decide)
  rw [h]
  decide

/-- C5: a naming read that fails (read error, stream end, or a frame that
does not decode as text) and an empty naming text all yield the placeholder
display name Anonymous, and every session, whatever its naming read, still
proceeds to registration: afterwards its display name maps to its handle. -/
theorem naming_failure_nonfatal (tx : Handle) (s : ChatState) :
    displayName ReadResult.readError = "Anonymous"
    ∧ displayName ReadResult.streamEnd = "Anonymous"
    ∧ displayName (ReadResult.frame Message.nonText) = "Anonymous"
    ∧ displayName (ReadResult.frame (Message.text "")) = "Anonymous"
    ∧ ∀ r : ReadResult,
        registryLookup ((user_connected_setup r tx s).1).users (displayName r) = some tx := by
  refine ⟨rfl, rfl, rfl, by decide, ?_⟩
  intro r
  exact registryLookup_insert s.users (displayName r) tx

/-- C6: registering key K with a new handle over an existing entry replaces
the prior handle in place; afterwards the lookup yields the new handle,
every broadcast delivery keyed K carries the new handle, and (when the prior
handle belonged only to K) the prior handle receives no deliveries at all. -/
theorem register_replaces_prior_handle (users : List (String × Handle))
    (K S msg : String) (h1 h2 : Handle)
    (hK : registryLookup users K = some h1) :
    registryLookup (registryInsert users K h2) K = some h2
    ∧ (∀ d ∈ broadcastExcept (registryInsert users K h2) S msg,
        d.key = K → d.handle = h2)
    ∧ ((∀ p ∈ users, p.2 = h1 → p.1 = K) → h1 ≠ h2 →
        ∀ d ∈ broadcastExcept (registryInsert users K h2) S msg, d.handle ≠ h1) := by
  refine ⟨registryLookup_insert users K h2, ?_, ?_⟩
  · intro d hd hdK
    have hm := (mem_broadcastExcept hd).1
    rcases mem_registryInsert hm with h | ⟨_, hne⟩
    · exact (Prod.ext_iff.mp h).2
    · exact absurd hdK hne
  · intro honly hne12 d hd
    have hm := (mem_broadcastExcept hd).1
    rcases mem_registryInsert hm with h | ⟨hmem, hkne⟩
    · have hh : d.handle = h2 := (Prod.ext_iff.mp h).2
      rw [hh]
      exact Ne.symm hne12
    · intro hdh1
      exact hkne (honly (d.key, d.handle) hmem hdh1)

/-- Witness for C6: key K held handle 1, is re-registered with handle 2. -/
theorem register_replaces_prior_handle_witness :
    registryLookup (registryInsert [("K", 1), ("x", 9)] "K" 2) "K" = some 2
    ∧ ({ key := "K", handle := 2, payload := "m" } : Delivery).handle = 2
    ∧ ({ key := "x", handle := 9, payload := "m" } : Delivery).handle ≠ 1 := by
  have h := register_replaces_prior_handle [("K", 1), ("x", 9)] "K" "s" "m" 1 2 (by decide)
  refine ⟨h.1, ?_, ?_⟩
  · exact h.2.1 { key := "K", handle := 2, payload := "m" } (by decide) (by decide)
  · exact h.2.2 (by decide) (by decide)
      { key := "x", handle := 9, payload := "m" } (by decide)

/-- C8 counterexample: replaying a one-element history performs a transport
write while the history read guard is held, refuting copy-then-release. -/
theorem replay_holds_lock_counterexample :
    writeUnderHistoryLock (replayTrace ["m"]) = true := by decide

/-- C8 amended: for every non-empty history, the replay acquires the history
read guard first, performs some transport write while the guard is held, and
releases the guard only after the last write. -/
theorem replay_writes_under_lock (h : List String) (hne : h ≠ []) :
    writeUnderHistoryLock (replayTrace h) = true
    ∧ (replayTrace h).head? = some Event.acquireHistoryRead
    ∧ (replayTrace h).getLast? = some Event.releaseHistoryRead := by
  refine ⟨?_, rfl, ?_⟩
  · cases h with
    | nil => exact absurd rfl hne
    | cons x xs => rfl
  · unfold replayTrace
    rw [← List.cons_append, List.getLast?_concat]

/-- Witness for C8 at a concrete two-message history. -/
theorem replay_writes_under_lock_witness :
    writeUnderHistoryLock (replayTrace ["m1", "m2"]) = true
    ∧ (replayTrace ["m1", "m2"]).head? = some Event.acquireHistoryRead
    ∧ (replayTrace ["m1", "m2"]).getLast? = some Event.releaseHistoryRead :=
  replay_writes_under_lock ["m1", "m2"] (by decide)

/-- C9: after a second registration under the same name N overwrites the
first, the teardown of the first session removes the entry for N, so the
lookup for N fails and no subsequent broadcast delivers to key N, even
though the second connection is still alive. -/
theorem teardown_deregisters_overwritten_name (users : List (String × Handle))
    (N S msg : String) (hA hB : Handle) :
    registryLookup (registryInsert (registryInsert users N hA) N hB) N = some hB
    ∧ registryLookup
        (user_disconnected N (registryInsert (registryInsert users N hA) N hB)) N = none
    ∧ ∀ d ∈ broadcastExcept
          (user_disconnected N (registryInsert (registryInsert users N hA) N hB)) S msg,
        d.key ≠ N := by
  refine ⟨registryLookup_insert _ N hB, registryLookup_remove _ N, ?_⟩
  intro d hd
  have hm := (mem_broadcastExcept hd).1
  exact (mem_registryRemove hm).2

/-- Witness for C9: name n registered twice, then torn down; the remaining
broadcast reaches only the unrelated entry x. -/
theorem teardown_deregisters_overwritten_name_witness :
    registryLookup (registryInsert (registryInsert [("x", 9)] "n" 1) "n" 2) "n" = some 2
    ∧ registryLookup
        (user_disconnected "n" (registryInsert (registryInsert [("x", 9)] "n" 1) "n" 2)) "n"
      = none
    ∧ ({ key := "x", handle := 9, payload := "m" } : Delivery).key ≠ "n" := by
  have h := teardown_deregisters_overwritten_name [("x", 9)] "n" "s" "m" 1 2
  exact ⟨h.1, h.2.1, h.2.2 { key := "x", handle := 9, payload := "m" } (by decide)⟩

/-- C10: an empty text frame in the relay state is still relayed: it is
rendered with empty text after the colon, appended to history, and enqueued
to every other registry entry; by contrast the empty naming text yields the
placeholder display name. -/
theorem empty_text_relayed (name : String) (s : ChatState) :
    renderMessage name "" = "<User#" ++ name ++ ">: "
    ∧ (user_message name (Message.text "") s).1.history
        = historyAppend s.history (renderMessage name "")
    ∧ (∀ p ∈ s.users, p.1 ≠ name →
        ({ key := p.1, handle := p.2, payload := renderMessage name "" } : Delivery)
          ∈ (user_message name (Message.text "") s).2)
    ∧ displayName (ReadResult.frame (Message.text "")) = "Anonymous" := by
  refine ⟨String.append_empty _, rfl, ?_, by decide⟩
  intro p hp hne
  exact broadcastExcept_mem_of_ne name (renderMessage name "") hp hne

/-- Witness for C10: alice sends the empty text with bob registered. -/
theorem empty_text_relayed_witness :
    renderMessage "alice" "" = "<User#alice>: "
    ∧ ({ key := "bob", handle := 2, payload := renderMessage "alice" "" } : Delivery)
        ∈ (user_message "alice" (Message.text "")
            { users := [("bob", 2)], history := ["h0"] }).2 := by
  have h := empty_text_relayed "alice" { users := [("bob", 2)], history := ["h0"] }
  exact ⟨h.1, h.2.2.1 ("bob", 2) (by decide) (by decide)⟩

end WarpChat
